import Mathlib

/-
Verification of the client-side index of `query_benchmarker_cassandra`
(`client_side_index.go`), over a shallow embedding of the Go source.

Modelling conventions:
  * Go strings are lists of characters (`GoStr`); `strings.Split` with the
    single-character separators `"#"` and `","` used by the source is
    `List.splitOn`.
  * `time.Time` instants are integers counting nanoseconds since the Unix
    epoch; everything here is UTC, so wall-clock equality is instant equality.
  * `log.Fatal` terminates the process; a function that may call it is
    embedded with `Except`, the fatal outcomes being the `Except.error`
    constructors.
  * Go `map` values are association lists keyed by value equality; only key
    membership and lookup matter here (the source never iterates these maps),
    so the modelling order of keys is irrelevant to every statement below.
  * The repository carries no `go.mod` language-version raise, so `range`
    loops have the classic (pre-Go-1.22) semantics: a loop declares its
    variable once and `&s` denotes the same cell on every iteration.
-/

/-- Go strings modelled as lists of characters. -/
abbrev GoStr := List Char

/-- Nanoseconds since the Unix epoch, UTC (the instant of a Go `time.Time`). -/
abbrev GoTime := Int

/-- Modelled from the spec: `BucketDuration` is the process-wide constant
size of a time bucket ("e.g. one day"); its definition is not among the
given source files. One day, in nanoseconds (a Go `time.Duration`). -/
def BucketDuration : Int := 86400000000000

/-- Modelled from the spec: the `TimeInterval` value type, a half-open range
`[start, end)` with value-based equality on its two instants; its definition
is not among the given source files. -/
structure TimeInterval where
  Start : GoTime
  End : GoTime
deriving DecidableEq

/-- Modelled from the spec: `NewTimeInterval` packs the two instants of a
half-open range. -/
def NewTimeInterval (s e : GoTime) : TimeInterval := ⟨s, e⟩

/-- Modelled from the spec: `TimeInterval.Overlap`, "overlap = non-empty
intersection of two half-open ranges; touching-but-not-overlapping endpoints
do not count as overlap" — for half-open ranges this is the test
`ti.start < other.end && other.start < ti.end`. -/
def TimeInterval.Overlap (ti other : TimeInterval) : Bool :=
  decide (ti.Start < other.End) && decide (other.Start < ti.End)

/-- Leap years of the proleptic Gregorian calendar (Go `time.isLeap`). -/
def isLeapYear (y : Nat) : Bool :=
  y % 4 == 0 && (y % 100 != 0 || y % 400 == 0)

/-- Length of a month, used by Go `time.Parse` to range-check the day. -/
def daysInMonth (y m : Nat) : Nat :=
  if m = 2 then (if isLeapYear y then 29 else 28)
  else if m = 4 ∨ m = 6 ∨ m = 9 ∨ m = 11 then 30
  else 31

/-- Days from 1970-01-01 to the civil date `y-m-d` (proleptic Gregorian),
the standard era-based conversion Go's `time` package implements. -/
def daysFromCivil (y m d : Nat) : Int :=
  let yi : Int := if m ≤ 2 then (y : Int) - 1 else (y : Int)
  let era : Int := yi.fdiv 400
  let yoe : Int := yi - era * 400
  let mp : Int := if m ≤ 2 then (m : Int) + 9 else (m : Int) - 3
  let doy : Int := (153 * mp + 2).fdiv 5 + (d : Int) - 1
  let doe : Int := yoe * 365 + yoe.fdiv 4 - yoe.fdiv 100 + doy
  era * 146097 + doe - 719468

/-- The numeric value of a decimal digit character. -/
def digit (c : Char) : Option Nat :=
  if '0' ≤ c ∧ c ≤ '9' then some (c.toNat - '0'.toNat) else none

/-- Embedding of Go `time.Parse("2006-01-02", s)` (the parse in
`Series.parse`): exactly four year digits, a dash, two month digits, a dash,
two day digits, the whole string consumed; month and day are range-checked.
Returns the UTC midnight instant of that calendar day. -/
def parseDate : GoStr → Option GoTime
  | [y1, y2, y3, y4, s1, mo1, mo2, s2, d1, d2] =>
    if s1 = '-' ∧ s2 = '-' then
      match digit y1, digit y2, digit y3, digit y4,
            digit mo1, digit mo2, digit d1, digit d2 with
      | some a, some b, some c, some d, some e, some f, some g, some h =>
        let year := 1000 * a + 100 * b + 10 * c + d
        let month := 10 * e + f
        let day := 10 * g + h
        if 1 ≤ month ∧ month ≤ 12 ∧ 1 ≤ day ∧ day ≤ daysInMonth year month then
          some (86400000000000 * daysFromCivil year month day)
        else none
      | _, _, _, _, _, _, _, _ => none
    else none
  | _ => none

/-- The `Series` struct. Go's `Tags map[string]struct{}` is modelled as the
list of tag tokens in insertion order; `parse` rejects duplicates, so list
membership coincides with the Go map's key membership. -/
structure Series where
  Table : GoStr
  Id : GoStr
  Measurement : GoStr
  Tags : List GoStr
  Field : GoStr
  TimeInterval : TimeInterval
deriving DecidableEq

/-- Alias for the interval type, usable inside the `Series` namespace where
the plain name resolves to the struct field of the same spelling. -/
abbrev QueryInterval := TimeInterval

/-- The three `log.Fatal` sites of `Series.parse`, in source order. -/
inductive ParseError where
  | invalidSeriesId
  | duplicateTag
  | badTimeBucket
deriving DecidableEq

/-- The tag-collection loop of `Series.parse`: each token of
`measurementAndTags[1:]` is added to the tag set after a duplicate check
(`log.Fatal("logic error: duplicate tag")`). -/
def collectTags : List GoStr → List GoStr → Except ParseError (List GoStr)
  | [], acc => .ok acc
  | t :: ts, acc =>
    if t ∈ acc then .error .duplicateTag
    else collectTags ts (acc ++ [t])

/-- Embedding of `NewSeries` (whose work is `Series.parse`): split the id on
`'#'` into exactly three sections or die; split section 0 on `','`, the head
is the measurement (Go's `Split` never returns an empty slice, so index 0 is
`headI`) and the remaining tokens are the tags; section 1 is the field;
section 2 is parsed as a UTC calendar day and the series interval is
`[start, start + BucketDuration)`. -/
def NewSeries (table id : GoStr) : Except ParseError Series :=
  match id.splitOn '#' with
  | [mtStr, fieldStr, dateStr] =>
    let measurementAndTags := mtStr.splitOn ','
    match collectTags measurementAndTags.tail [] with
    | .error e => .error e
    | .ok tags =>
      match parseDate dateStr with
      | none => .error .badTimeBucket
      | some start =>
        .ok { Table := table, Id := id,
              Measurement := measurementAndTags.headI,
              Tags := tags, Field := fieldStr,
              TimeInterval := NewTimeInterval start (start + BucketDuration) }
  | _ => .error .invalidSeriesId

deriving instance DecidableEq for Except

/-- Whether an embedded Go computation hit a `log.Fatal` (process death). -/
def fatal {ε α : Type} (r : Except ε α) : Bool :=
  match r with
  | .error _ => true
  | .ok _ => false

/-- Embedding of `Series.MatchesTimeInterval`: delegate to
`TimeInterval.Overlap`. -/
def Series.MatchesTimeInterval (s : Series) (ti : QueryInterval) : Bool :=
  s.TimeInterval.Overlap ti

/-- Embedding of `Series.MatchesMeasurementName`: string equality. -/
def Series.MatchesMeasurementName (s : Series) (m : GoStr) : Bool :=
  decide (s.Measurement = m)

/-- Embedding of `Series.MatchesFieldName`: string equality. -/
def Series.MatchesFieldName (s : Series) (f : GoStr) : Bool :=
  decide (s.Field = f)

/-- Embedding of `Series.MatchesTagSets`: the outer loop over `tagsets`
returns `false` as soon as one tagset has no member among the series tags
(`List.all`); the inner loop with `break` is `List.any`. -/
def Series.MatchesTagSets (s : Series) (tagsets : List (List GoStr)) : Bool :=
  tagsets.all (fun tagset => tagset.any (fun tag => decide (tag ∈ s.Tags)))

/-- A Go method on `*Series` in state-passing form: the pair is the result
and the receiver's post-state. The body of `MatchesTimeInterval` contains no
assignment, so the post-state is the receiver itself. -/
def Series.MatchesTimeIntervalM (s : Series) (ti : QueryInterval) : Bool × Series :=
  (s.MatchesTimeInterval ti, s)

/-- State-passing form of `Series.MatchesMeasurementName` (no assignment in
the body). -/
def Series.MatchesMeasurementNameM (s : Series) (m : GoStr) : Bool × Series :=
  (s.MatchesMeasurementName m, s)

/-- State-passing form of `Series.MatchesFieldName` (no assignment in the
body). -/
def Series.MatchesFieldNameM (s : Series) (f : GoStr) : Bool × Series :=
  (s.MatchesFieldName f, s)

/-- State-passing form of `Series.MatchesTagSets` (its body assigns only the
locals `match` and `tag`, never the receiver). -/
def Series.MatchesTagSetsM (s : Series) (tagsets : List (List GoStr)) : Bool × Series :=
  (s.MatchesTagSets tagsets, s)

/-- Addresses of heap cells. With the classic `range` semantics, each of the
two loops of `NewClientSideIndex` declares one variable `s` whose address
escapes into the maps, so two cells exist. -/
abbrev Addr := Nat

/-- The cell of the first loop's variable (the `&s` of the
`byTimeInterval` loop). -/
def loopVar1Addr : Addr := 0

/-- The cell of the second loop's variable (the `&s` of the `byTag` loop). -/
def loopVar2Addr : Addr := 1

/-- The final contents of the two loop-variable cells once
`NewClientSideIndex` returns: each loop leaves its variable holding the last
element of `seriesCollection`. -/
structure LoopCells where
  cell1 : Series
  cell2 : Series
deriving DecidableEq

/-- Dereference one of the escaped loop-variable addresses. -/
def LoopCells.deref (c : LoopCells) (a : Addr) : Option Series :=
  if a = loopVar1Addr then some c.cell1
  else if a = loopVar2Addr then some c.cell2
  else none

/-- Lookup in a Go map modelled as an association list (`m[k]`). -/
def mapLookup {K V : Type} [DecidableEq K] (m : List (K × V)) (k : K) : Option V :=
  (m.find? (fun kv => decide (kv.1 = k))).map (fun kv => kv.2)

/-- Overwrite the entry of key `k` (`m[k] = v` for a key already present;
appends when absent, matching Go map assignment). -/
def mapSet {K V : Type} [DecidableEq K] : List (K × V) → K → V → List (K × V)
  | [], k, v => [(k, v)]
  | kv :: rest, k, v =>
    if kv.1 = k then (k, v) :: rest else kv :: mapSet rest k v

/-- One iteration of either index-building loop of `NewClientSideIndex`:
create the bucket on first use, then insert the pointer `a` unless already
present. Buckets (`map[*Series]struct{}`) are lists of addresses compared by
pointer equality. -/
def bucketInsert {K : Type} [DecidableEq K]
    (m : List (K × List Addr)) (k : K) (a : Addr) : List (K × List Addr) :=
  let m1 := match mapLookup m k with
    | none => m ++ [(k, [])]
    | some _ => m
  match mapLookup m1 k with
  | none => m1
  | some bucket =>
    if a ∈ bucket then m1 else mapSet m1 k (bucket ++ [a])

/-- The `ClientSideIndex` struct. -/
structure ClientSideIndex where
  timeIntervalMapping : List (TimeInterval × List Addr)
  tagMapping : List (GoStr × List Addr)
  seriesCollection : List Series
  seriesIds : List GoStr
deriving DecidableEq

/-- The one `log.Fatal` site of `NewClientSideIndex`
("logic error: no data to build ClientSideIndex"). -/
inductive IndexError where
  | emptyIndexInput
deriving DecidableEq

/-- Embedding of `NewClientSideIndex`. Besides the index it returns the
final contents of the two loop-variable cells whose addresses were taken:
with the classic `range` semantics, every iteration of the first loop
inserts the same address `loopVar1Addr` (and the second loop
`loopVar2Addr`), and after each loop its cell holds the collection's last
element. -/
def NewClientSideIndex (seriesCollection : List Series) :
    Except IndexError (ClientSideIndex × LoopCells) :=
  match seriesCollection with
  | [] => .error .emptyIndexInput
  | s0 :: rest =>
    let coll := s0 :: rest
    let bm := coll.foldl
      (fun bm s => bucketInsert bm s.TimeInterval loopVar1Addr) []
    let tm := coll.foldl
      (fun tm s => s.Tags.foldl (fun tm tag => bucketInsert tm tag loopVar2Addr) tm) []
    let ids := coll.map (fun s => s.Id)
    let lastS := rest.getLastD s0
    .ok ({ timeIntervalMapping := bm, tagMapping := tm,
           seriesCollection := coll, seriesIds := ids },
         { cell1 := lastS, cell2 := lastS })

/-- A heap of slice backing arrays: allocation `i` is `arrays[i]`. -/
structure SliceHeap where
  arrays : List (List Series)

/-- A Go slice value, reduced to the backing allocation it references. -/
structure SliceRef where
  id : Nat
deriving DecidableEq

/-- The elements a slice currently holds. -/
def SliceHeap.read (h : SliceHeap) (r : SliceRef) : List Series :=
  h.arrays.getD r.id []

/-- Embedding of `CopyOfSeriesCollection`: `make([]Series, len(...))`
allocates a fresh backing array and `copy` fills it with the internal
collection's elements; the returned slice references the new allocation. -/
def CopyOfSeriesCollection (h : SliceHeap) (internal : SliceRef) :
    SliceHeap × SliceRef :=
  (⟨h.arrays ++ [h.read internal]⟩, ⟨h.arrays.length⟩)

/-- A caller-side mutation of a slice: replace the contents of its backing
array by any function of them (covers appending, reordering, overwriting). -/
def SliceHeap.mutate (h : SliceHeap) (r : SliceRef)
    (f : List Series → List Series) : SliceHeap :=
  ⟨h.arrays.set r.id (f (h.arrays.getD r.id []))⟩

/-- A well-formed composite identifier of the grammar
`<measurement>(,<tag>)* '#' <field> '#' <date>`. -/
def mkSeriesId (m : GoStr) (tags : List GoStr) (f d : GoStr) : GoStr :=
  ['#'].intercalate [[','].intercalate (m :: tags), f, d]

/-- A sample series used to instantiate hypotheses at concrete inputs. -/
def exSeriesA : Series :=
  { Table := "T".toList, Id := "i".toList, Measurement := "cpu".toList,
    Tags := ["hostname=host_0".toList], Field := "f".toList,
    TimeInterval := ⟨0, 86400000000000⟩ }

/-- The index `NewClientSideIndex [exSeriesA]` builds. -/
def exCsi : ClientSideIndex :=
  { timeIntervalMapping := [(⟨0, 86400000000000⟩, [loopVar1Addr])],
    tagMapping := [("hostname=host_0".toList, [loopVar2Addr])],
    seriesCollection := [exSeriesA], seriesIds := ["i".toList] }

/-- The loop cells `NewClientSideIndex [exSeriesA]` leaves behind. -/
def exCells : LoopCells := ⟨exSeriesA, exSeriesA⟩

/-- First raw identifier of the spec's end-to-end example. -/
def endToEndId1 : GoStr := "cpu,hostname=host_0#usage_idle#2016-01-01".toList

/-- Second raw identifier of the spec's end-to-end example. -/
def endToEndId2 : GoStr := "mem,hostname=host_1#available#2016-01-02".toList

/-- The parse of `endToEndId1` (2016-01-01 is day 16801 of the epoch). -/
def endToEndRow1 : Series :=
  { Table := "T".toList, Id := endToEndId1, Measurement := "cpu".toList,
    Tags := ["hostname=host_0".toList], Field := "usage_idle".toList,
    TimeInterval := ⟨1451606400000000000, 1451692800000000000⟩ }

/-- The parse of `endToEndId2`. -/
def endToEndRow2 : Series :=
  { Table := "T".toList, Id := endToEndId2, Measurement := "mem".toList,
    Tags := ["hostname=host_1".toList], Field := "available".toList,
    TimeInterval := ⟨1451692800000000000, 1451779200000000000⟩ }

/-- C5: for every row and sequence of tag groups, `MatchesTagSets` is true
iff every group contributes at least one tag the row possesses (AND across
groups, OR within a group); in particular the empty sequence matches every
row. -/
theorem MatchesTagSets_iff_groups (s : Series) (tagsets : List (List GoStr)) :
    (s.MatchesTagSets tagsets = true ↔
      ∀ group ∈ tagsets, ∃ tag ∈ group, tag ∈ s.Tags) ∧
    s.MatchesTagSets [] = true := by
  constructor
  · simp [Series.MatchesTagSets]
  · rfl

/-- C10: a non-empty `tagsets` containing an empty group makes
`MatchesTagSets` false for every row: the empty inner disjunction is
unsatisfiable. -/
theorem MatchesTagSets_empty_group (s : Series) (tagsets : List (List GoStr))
    (h : [] ∈ tagsets) : s.MatchesTagSets tagsets = false := by
  simp only [Series.MatchesTagSets, List.all_eq_false]
  exact ⟨[], h, by simp⟩

/-- Witness for C10 at a concrete row and tag-set list. -/
theorem MatchesTagSets_empty_group_witness :
    exSeriesA.MatchesTagSets [["hostname=host_0".toList], []] = false :=
  MatchesTagSets_empty_group exSeriesA [["hostname=host_0".toList], []] (by decide)

/-- C9: the four matching predicates, in the state-passing embedding of Go
pointer-receiver methods, leave the receiver untouched (hence all its
fields) and produce only their boolean; their bodies contain no assignment
to the receiver or to any reachable state. -/
theorem matchPredicates_no_mutation (s : Series) (ti : QueryInterval)
    (m f : GoStr) (tagsets : List (List GoStr)) :
    (s.MatchesTimeIntervalM ti).2 = s ∧
    (s.MatchesMeasurementNameM m).2 = s ∧
    (s.MatchesFieldNameM f).2 = s ∧
    (s.MatchesTagSetsM tagsets).2 = s :=
  ⟨rfl, rfl, rfl, rfl⟩

/-- C6: `NewClientSideIndex` dies with the empty-input `log.Fatal` exactly
on the empty collection, and succeeds on every non-empty collection. -/
theorem NewClientSideIndex_empty_fatal_iff (coll : List Series) :
    (NewClientSideIndex coll = .error .emptyIndexInput ↔ coll = []) ∧
    (coll ≠ [] → ∃ out, NewClientSideIndex coll = .ok out) := by
  cases coll with
  | nil => simp [NewClientSideIndex]
  | cons s0 rest => simp [NewClientSideIndex]

/-- Witness for C6: the singleton collection builds an index. -/
theorem NewClientSideIndex_empty_fatal_iff_witness :
    ∃ out, NewClientSideIndex [exSeriesA] = .ok out :=
  (NewClientSideIndex_empty_fatal_iff [exSeriesA]).2 (by decide)

/-- C4: for non-degenerate half-open intervals, `MatchesTimeInterval` is
true iff the row's stored interval and the query interval share at least one
instant; intervals that only touch at a boundary do not match. -/
theorem MatchesTimeInterval_iff_overlap (s : Series) (q : QueryInterval)
    (hs : s.TimeInterval.Start < s.TimeInterval.End)
    (hq : q.Start < q.End) :
    s.MatchesTimeInterval q = true ↔
      ∃ t : GoTime, (s.TimeInterval.Start ≤ t ∧ t < s.TimeInterval.End) ∧
        (q.Start ≤ t ∧ t < q.End) := by
  simp only [Series.MatchesTimeInterval, TimeInterval.Overlap, Bool.and_eq_true,
    decide_eq_true_eq]
  constructor
  · rintro ⟨h1, h2⟩
    exact ⟨max s.TimeInterval.Start q.Start,
      ⟨le_max_left _ _, max_lt hs h2⟩, le_max_right _ _, max_lt h1 hq⟩
  · rintro ⟨t, ⟨ha1, ha2⟩, hb1, hb2⟩
    exact ⟨lt_of_le_of_lt ha1 hb2, lt_of_le_of_lt hb1 ha2⟩

/-- Witness for C4 at a concrete row and query interval. -/
theorem MatchesTimeInterval_iff_overlap_witness :
    exSeriesA.MatchesTimeInterval ⟨1, 2⟩ = true ↔
      ∃ t : GoTime,
        (exSeriesA.TimeInterval.Start ≤ t ∧ t < exSeriesA.TimeInterval.End) ∧
        ((1 : Int) ≤ t ∧ t < 2) :=
  MatchesTimeInterval_iff_overlap exSeriesA ⟨1, 2⟩ (by decide) (by decide)

/-- C7: `CopyOfSeriesCollection` hands back a fresh allocation holding the
same elements in the same order; mutating the copy (appending, reordering,
any rewrite of its contents) leaves the index's internal collection exactly
as it was. -/
theorem CopyOfSeriesCollection_independent (h : SliceHeap) (internal : SliceRef)
    (f : List Series → List Series)
    (hv : internal.id < h.arrays.length) :
    (CopyOfSeriesCollection h internal).2.id ≠ internal.id ∧
    (CopyOfSeriesCollection h internal).1.read (CopyOfSeriesCollection h internal).2
      = h.read internal ∧
    (CopyOfSeriesCollection h internal).1.read internal = h.read internal ∧
    ((CopyOfSeriesCollection h internal).1.mutate
        (CopyOfSeriesCollection h internal).2 f).read internal
      = h.read internal := by
  refine ⟨by simp [CopyOfSeriesCollection]; omega, ?_, ?_, ?_⟩
  · simp [CopyOfSeriesCollection, SliceHeap.read, List.getD_eq_getElem?_getD,
      List.getElem?_concat_length]
  · simp only [CopyOfSeriesCollection, SliceHeap.read, List.getD_eq_getElem?_getD]
    rw [List.getElem?_append, if_pos hv]
  · simp only [CopyOfSeriesCollection, SliceHeap.read, SliceHeap.mutate,
      List.getD_eq_getElem?_getD]
    rw [List.getElem?_set_ne (by omega), List.getElem?_append, if_pos hv]

/-- Witness for C7 at a concrete heap, slice and append mutation. -/
theorem CopyOfSeriesCollection_independent_witness :
    (CopyOfSeriesCollection ⟨[[exSeriesA]]⟩ ⟨0⟩).2.id ≠ (⟨0⟩ : SliceRef).id ∧
    (CopyOfSeriesCollection ⟨[[exSeriesA]]⟩ ⟨0⟩).1.read
        (CopyOfSeriesCollection ⟨[[exSeriesA]]⟩ ⟨0⟩).2
      = SliceHeap.read ⟨[[exSeriesA]]⟩ ⟨0⟩ ∧
    (CopyOfSeriesCollection ⟨[[exSeriesA]]⟩ ⟨0⟩).1.read ⟨0⟩
      = SliceHeap.read ⟨[[exSeriesA]]⟩ ⟨0⟩ ∧
    ((CopyOfSeriesCollection ⟨[[exSeriesA]]⟩ ⟨0⟩).1.mutate
        (CopyOfSeriesCollection ⟨[[exSeriesA]]⟩ ⟨0⟩).2 (fun l => l ++ [exSeriesA])).read ⟨0⟩
      = SliceHeap.read ⟨[[exSeriesA]]⟩ ⟨0⟩ :=
  CopyOfSeriesCollection_independent ⟨[[exSeriesA]]⟩ ⟨0⟩
    (fun l => l ++ [exSeriesA]) (by decide)

/-- C8: a successfully built index stores the input collection itself as
`seriesCollection` (input order preserved) and `seriesIds` is its parallel
map to raw identifiers, one id per row, same length. -/
theorem NewClientSideIndex_rows_and_ids (coll : List Series)
    (csi : ClientSideIndex) (cells : LoopCells)
    (hok : NewClientSideIndex coll = .ok (csi, cells)) :
    csi.seriesCollection = coll ∧
    csi.seriesIds = coll.map (fun s => s.Id) ∧
    csi.seriesIds.length = csi.seriesCollection.length := by
  cases coll with
  | nil => simp [NewClientSideIndex] at hok
  | cons s0 rest =>
    simp only [NewClientSideIndex, Except.ok.injEq, Prod.mk.injEq] at hok
    obtain ⟨hcsi, -⟩ := hok
    subst hcsi
    exact ⟨rfl, rfl, by simp⟩

/-- Witness for C8 at the singleton collection. -/
theorem NewClientSideIndex_rows_and_ids_witness :
    exCsi.seriesCollection = [exSeriesA] ∧
    exCsi.seriesIds = [exSeriesA].map (fun s => s.Id) ∧
    exCsi.seriesIds.length = exCsi.seriesCollection.length :=
  NewClientSideIndex_rows_and_ids [exSeriesA] exCsi exCells (by decide)

/-- C1, evaluated at the spec's end-to-end input: both identifiers parse to
the expected rows and the index builds with the expected key sets, but each
bucket of `byTimeInterval` and `byTag` holds the single pointer to its
loop's variable, whose final referent is the second (last) row. The bucket
of tag `hostname=host_0` therefore references only a row that does not
carry that tag, and the bucket of the first row's interval references only
a row of a different interval: the buckets do not identify the rows whose
interval or tag equals their key. -/
theorem indexBuckets_reference_last_row_only :
    NewSeries "T".toList endToEndId1 = .ok endToEndRow1 ∧
    NewSeries "T".toList endToEndId2 = .ok endToEndRow2 ∧
    (NewClientSideIndex [endToEndRow1, endToEndRow2]).toOption.map (fun out =>
        (mapLookup out.1.tagMapping "hostname=host_0".toList,
         mapLookup out.1.timeIntervalMapping endToEndRow1.TimeInterval,
         out.2.deref loopVar2Addr,
         out.2.deref loopVar1Addr))
      = some (some [loopVar2Addr], some [loopVar1Addr],
              some endToEndRow2, some endToEndRow2) ∧
    "hostname=host_0".toList ∉ endToEndRow2.Tags ∧
    endToEndRow1.TimeInterval ≠ endToEndRow2.TimeInterval ∧
    endToEndRow1 ≠ endToEndRow2 := by
  refine ⟨by decide, by decide, by decide, by decide, by decide, by decide⟩

/-- Unfolding of `List.intercalate` on a two-or-more element list. -/
theorem intercalate_cons_two (sep a b : GoStr) (t : List GoStr) :
    sep.intercalate (a :: b :: t) = a ++ sep ++ sep.intercalate (b :: t) := by
  simp [List.intercalate, List.intersperse_cons_cons, List.append_assoc]

/-- A character distinct from the separator and absent from every part is
absent from the intercalation. -/
theorem not_mem_intercalate_single (c x : Char) (parts : List GoStr)
    (hxc : x ≠ c) (hp : ∀ p ∈ parts, x ∉ p) : x ∉ [c].intercalate parts := by
  induction parts with
  | nil => simp [List.intercalate]
  | cons a t ih =>
    cases t with
    | nil => simpa [List.intercalate] using hp a (by simp)
    | cons b t2 =>
      rw [intercalate_cons_two]
      intro hmem
      rcases List.mem_append.mp hmem with h1 | h2
      · rcases List.mem_append.mp h1 with ha | hc
        · exact hp a (by simp) ha
        · simp at hc
          exact hxc hc
      · exact ih (fun p hp2 => hp p (by simp [hp2])) h2

/-- A character with a digit value is not the hash separator. -/
theorem digit_ne_hash (ch : Char) (k : Nat) (h : digit ch = some k) : ch ≠ '#' := by
  intro he
  subst he
  rw [(by decide : digit '#' = none)] at h
  exact Option.noConfusion h

/-- A date string `parseDate` accepts consists of digits and dashes, so it
contains no hash separator. -/
theorem parseDate_some_no_hash (d : GoStr) (t : GoTime)
    (h : parseDate d = some t) : '#' ∉ d := by
  rw [parseDate.eq_def] at h
  split at h
  case _ y1 y2 y3 y4 s1 mo1 mo2 s2 d1 d2 =>
    split at h
    case isTrue hcond =>
      split at h
      case _ a b c dd e f g hh h1 h2 h3 h4 h5 h6 h7 h8 =>
        intro hmem
        simp only [List.mem_cons, List.not_mem_nil, or_false] at hmem
        rcases hmem with hx|hx|hx|hx|hx|hx|hx|hx|hx|hx
        · exact digit_ne_hash _ _ h1 hx.symm
        · exact digit_ne_hash _ _ h2 hx.symm
        · exact digit_ne_hash _ _ h3 hx.symm
        · exact digit_ne_hash _ _ h4 hx.symm
        · exact absurd (hx.trans hcond.1) (by decide)
        · exact digit_ne_hash _ _ h5 hx.symm
        · exact digit_ne_hash _ _ h6 hx.symm
        · exact absurd (hx.trans hcond.2) (by decide)
        · exact digit_ne_hash _ _ h7 hx.symm
        · exact digit_ne_hash _ _ h8 hx.symm
      case _ => exact absurd h (by simp)
    case isFalse hcond => exact absurd h (by simp)
  case _ => exact absurd h (by simp)

/-- The tag loop succeeds and returns the accumulated tokens in order when
no duplicate is present. -/
theorem collectTags_ok (l : List GoStr) : ∀ acc : List GoStr,
    (acc ++ l).Nodup → collectTags l acc = .ok (acc ++ l) := by
  induction l with
  | nil => intro acc h; simp [collectTags]
  | cons t ts ih =>
    intro acc h
    have hta : t ∉ acc := by
      simp only [List.nodup_append] at h
      intro hmem
      exact h.2.2 hmem (by simp)
    rw [collectTags, if_neg hta, ih (acc ++ [t]) (by simpa using h),
      List.append_cons acc t ts]

/-- The tag loop dies at the duplicate-tag `log.Fatal` when the tokens
(joined to a duplicate-free accumulator) contain a duplicate. -/
theorem collectTags_dup (l : List GoStr) : ∀ acc : List GoStr,
    acc.Nodup → ¬ (acc ++ l).Nodup → collectTags l acc = .error .duplicateTag := by
  induction l with
  | nil => intro acc hacc h; simp at h; exact absurd hacc h
  | cons t ts ih =>
    intro acc hacc h
    by_cases hta : t ∈ acc
    · rw [collectTags, if_pos hta]
    · rw [collectTags, if_neg hta]
      refine ih (acc ++ [t]) ?_ ?_
      · simp [List.nodup_append, hacc, hta]
      · intro hn
        exact h (by simpa [← List.append_cons] using hn)

/-- C2: parsing a well-formed identifier `m,t1,...,tn#f#YYYY-MM-DD` (no
separator characters inside the components, pairwise-distinct tags, valid
date) yields measurement `m`, the tag tokens `t1..tn`, field `f`, and the
half-open interval `[date, date + BucketDuration)` with the date read as a
UTC calendar day. -/
theorem NewSeries_wellFormed (table m f d : GoStr) (tags : List GoStr) (start : GoTime)
    (hm1 : '#' ∉ m) (hm2 : ',' ∉ m) (hf1 : '#' ∉ f)
    (ht : ∀ t ∈ tags, '#' ∉ t ∧ ',' ∉ t)
    (hnd : tags.Nodup)
    (hd : parseDate d = some start) :
    NewSeries table (mkSeriesId m tags f d) =
      .ok { Table := table, Id := mkSeriesId m tags f d, Measurement := m,
            Tags := tags, Field := f,
            TimeInterval := ⟨start, start + BucketDuration⟩ } := by
  have hdh : '#' ∉ d := parseDate_some_no_hash d start hd
  have hmt : '#' ∉ [','].intercalate (m :: tags) :=
    not_mem_intercalate_single ',' '#' (m :: tags) (by decide)
      (by
        intro p hp
        rcases List.mem_cons.mp hp with rfl | hp2
        · exact hm1
        · exact (ht p hp2).1)
  have hsplit : (mkSeriesId m tags f d).splitOn '#'
      = [[','].intercalate (m :: tags), f, d] := by
    unfold mkSeriesId
    refine List.splitOn_intercalate _ '#' ?_ (by simp)
    intro l hl
    rcases List.mem_cons.mp hl with rfl | hl2
    · exact hmt
    rcases List.mem_cons.mp hl2 with rfl | hl3
    · exact hf1
    rcases List.mem_cons.mp hl3 with rfl | hl4
    · exact hdh
    · simp at hl4
  have hsplit2 : ([','].intercalate (m :: tags)).splitOn ',' = m :: tags := by
    refine List.splitOn_intercalate _ ',' ?_ (by simp)
    intro l hl
    rcases List.mem_cons.mp hl with rfl | h2
    · exact hm2
    · exact (ht l h2).2
  rw [NewSeries, hsplit]
  dsimp only
  rw [hsplit2]
  dsimp only [List.tail_cons, List.headI]
  rw [collectTags_ok tags [] (by simpa using hnd), List.nil_append]
  dsimp only
  rw [hd]
  rfl

/-- Witness for C2 at a concrete well-formed identifier. -/
theorem NewSeries_wellFormed_witness :
    NewSeries "T".toList
        (mkSeriesId "cpu".toList
          ["hostname=host_0".toList, "region=eu-central-1".toList]
          "usage_idle".toList "2016-01-01".toList) =
      .ok { Table := "T".toList,
            Id := mkSeriesId "cpu".toList
              ["hostname=host_0".toList, "region=eu-central-1".toList]
              "usage_idle".toList "2016-01-01".toList,
            Measurement := "cpu".toList,
            Tags := ["hostname=host_0".toList, "region=eu-central-1".toList],
            Field := "usage_idle".toList,
            TimeInterval := ⟨1451606400000000000,
              1451606400000000000 + BucketDuration⟩ } :=
  NewSeries_wellFormed "T".toList "cpu".toList "usage_idle".toList
    "2016-01-01".toList
    ["hostname=host_0".toList, "region=eu-central-1".toList]
    1451606400000000000
    (by decide) (by decide) (by decide) (by decide) (by decide) (by decide)

/-- C3: `Series.parse` dies at a `log.Fatal` exactly when the identifier
does not split into three hash-delimited sections, or the tag tokens of the
first section contain a duplicate, or the third section fails date parsing;
on every other input it succeeds. -/
theorem NewSeries_fatal_iff (table id : GoStr) :
    fatal (NewSeries table id) = true ↔
      (id.splitOn '#').length ≠ 3 ∨
      ¬ ((id.splitOn '#').headI.splitOn ',').tail.Nodup ∨
      parseDate ((id.splitOn '#').getD 2 []) = none := by
  rw [NewSeries]
  split
  case _ mtStr fieldStr dateStr heq =>
    rw [heq]
    dsimp only
    by_cases hnd : ((mtStr.splitOn ',').tail).Nodup
    · rw [collectTags_ok _ [] (by simpa using hnd)]
      dsimp only
      cases hpd : parseDate dateStr with
      | none => simp [fatal, hnd, hpd]
      | some st => simp [fatal, hnd, hpd]
    · rw [collectTags_dup _ [] (by simp) (by simpa using hnd)]
      simp [fatal, hnd]
  case _ hne =>
    simp only [fatal, true_iff]
    refine Or.inl ?_
    intro hlen
    obtain ⟨a, b, c, habc⟩ := List.length_eq_three.mp hlen
    exact hne a b c habc
